import Mathlib

/-!
Shallow embedding of the graphvent lockable state machine, router send loop,
change tracking and signal serialization, together with proofs about the
claims of the natural-language specification.

Sources embedded:
- `LockableExt` and its handlers, from the lockable extension file
  (src/unnamed/part_006, lines 168-503).
- `Context.Send`, from the context file (src/unnamed/part_007, lines 298-322).
- `Changes.Add`, from src/extension.go, lines 20-24.
- `SerializeSignal` padding, from src/signal.go, lines 495-523.

Go maps are embedded as association lists, with the Go nil map kept distinct
from the empty map (an `Option` around the list): reads from a nil map yield
the zero value, writes to a nil map panic.  Go panics are embedded as the
`Except.error` branch of the handler result.  Random UUIDs from `uuid.New()`
are embedded by threading a counter giving each created signal the next id.
-/

namespace Graphvent

/-- Node identifiers: 128-bit values in Go, only compared for equality here. -/
abbrev NodeID := Nat

/-- UUIDs, only compared for equality; `uuid.UUID\x7b\x7d` (the zero uuid) is `0`. -/
abbrev UUID := Nat

/-- The zero UUID `uuid.UUID\x7b\x7d`. -/
def zeroUUID : UUID := 0

/-- `ReqState` from part_006: Unlocked/Unlocking/Locked/Locking/AbortingLock. -/
inductive ReqState where
  | Unlocked
  | Unlocking
  | Locked
  | Locking
  | AbortingLock
deriving DecidableEq, Repr

/-- `ReqInfo` from part_006: per-requirement state and in-flight message id. -/
structure ReqInfo where
  State : ReqState
  MsgID : UUID
deriving DecidableEq, Repr

/-- A Go `map[NodeID]ReqInfo`, keeping nil (`none`) distinct from empty. -/
abbrev ReqMap := Option (List (NodeID × ReqInfo))

/-- `len` of a Go map: a nil map has length 0. -/
def reqLen : ReqMap → Nat
  | none => 0
  | some l => l.length

/-- Comma-ok read `info, found := m[k]` from a Go map (nil map: not found). -/
def lookupEntry : List (NodeID × ReqInfo) → NodeID → Option ReqInfo
  | [], _ => none
  | (k', v) :: rest, k => if k' = k then some v else lookupEntry rest k

/-- Comma-ok read `info, found := m[k]` from a Go map (nil map: not found). -/
def reqGet : ReqMap → NodeID → Option ReqInfo
  | none, _ => none
  | some l, k => lookupEntry l k

/-- Update the first entry with key `k`, or append a new entry. -/
def setEntry : List (NodeID × ReqInfo) → NodeID → ReqInfo → List (NodeID × ReqInfo)
  | [], k, v => [(k, v)]
  | (k', v') :: rest, k, v =>
    if k' = k then (k, v) :: rest else (k', v') :: setEntry rest k v

/-- Write `m[k] = v` to a Go map: writing to a nil map panics. -/
def reqSet : ReqMap → NodeID → ReqInfo → Except String ReqMap
  | none, _, _ => .error "assignment to entry in nil map"
  | some l, k, v => .ok (some (setEntry l k v))

/-- `delete(m, k)` on a Go map (a no-op on a nil map). -/
def reqDel : ReqMap → NodeID → ReqMap
  | none, _ => none
  | some l, k => some (l.filter (fun p => p.1 ≠ k))

/-- Count the entries of the list whose requirement state is `s`. -/
def countState (l : List (NodeID × ReqInfo)) (s : ReqState) : Nat :=
  (l.filter (fun p => p.2.State = s)).length

/-- Signals exchanged by the lockable extension (part_003 revision):
`LockSignal(id, state)`, `LinkSignal(id, node, action)`,
`SuccessSignal(id, req_id)` and `ErrorSignal(id, req_id, error)`. -/
inductive Sig where
  | lockS (id : UUID) (state : String)
  | linkS (id : UUID) (node : NodeID) (action : String)
  | successS (id : UUID) (reqId : UUID)
  | errorS (id : UUID) (reqId : UUID) (err : String)
deriving DecidableEq, Repr

/-- A routed message of the lockable revision: the destination together with
the signal.  Modelled from the spec: the `Messages.Add` definition used by
the lockable file (signature `Add(ctx, node.ID, node.Key, signal, dest)`)
is not under src/; per the spec a message pairs a destination id with a
signal payload, and `Add` appends one message to the list. -/
structure SendMsg where
  dest : NodeID
  signal : Sig
deriving DecidableEq, Repr

abbrev Messages := List SendMsg

/-- Modelled from the spec: `Messages.Add` of the lockable revision appends
the message addressed to `dest` carrying `signal`. -/
def Messages.add (msgs : Messages) (dest : NodeID) (signal : Sig) : Messages :=
  List.append msgs [⟨dest, signal⟩]

/-- `Changes` from src/extension.go: a list of changed field names. -/
abbrev Changes := List String

/-- Modelled from the spec: the value-returning `Changes.Add` used by the
lockable revision (`changes = changes.Add("locked")`) is not under src/;
the spec requires additions to be visible to the caller, so it returns the
original list with the fields appended. -/
def Changes.add (changes : Changes) (fields : List String) : Changes :=
  List.append changes fields

/-- `LockableExt` from part_006, lines 188-195. -/
structure LockableExt where
  State : ReqState
  ReqID : Option UUID
  Owner : Option NodeID
  PendingOwner : Option NodeID
  PendingID : UUID
  Requirements : ReqMap
deriving DecidableEq

/-- `NewLockableExt` from part_006, lines 201-218: nil requirements give a
nil map, otherwise each listed id maps to (Unlocked, zero uuid). -/
def NewLockableExt (requirements : Option (List NodeID)) : LockableExt :=
  let reqs : ReqMap :=
    match requirements with
    | none => none
    | some ids => some (ids.foldl (fun m id => setEntry m id ⟨.Unlocked, zeroUUID⟩) [])
  { State := .Unlocked
    ReqID := none
    Owner := none
    PendingOwner := none
    PendingID := zeroUUID
    Requirements := reqs }

/-- Result of running a handler: the updated extension, the messages to
send, the change list, and the next fresh uuid.  A handler that panics (nil
map write, nil pointer dereference, or an explicit `panic`) instead
produces `Except.error` with the panic message. -/
abbrev HandlerOut := LockableExt × Messages × Changes × Nat

/-- The fan-out loop of `HandleLockSignal` (both directions): for every
requirement entry create a fresh lock signal carrying `state`, set the
entry to `reqState` with the new signal id as `MsgID`, and append the
message to that requirement. -/
def lockLoop (entries : List (NodeID × ReqInfo)) (state : String)
    (reqState : ReqState) (fresh : Nat) :
    List (NodeID × ReqInfo) × Messages × Nat :=
  match entries with
  | [] => ([], [], fresh)
  | (id, _) :: rest =>
    let out := lockLoop rest state reqState (fresh + 1)
    ((id, ⟨reqState, fresh⟩) :: out.1,
     (⟨id, .lockS fresh state⟩ : SendMsg) :: out.2.1,
     out.2.2)

/-- `LockableExt.HandleLockSignal` from part_006, lines 394-466. -/
def LockableExt.HandleLockSignal (ext : LockableExt) (nodeId : NodeID)
    (source : NodeID) (sigId : UUID) (sigState : String) (fresh : Nat) :
    Except String HandlerOut :=
  if sigState = "lock" then
    if ext.State = .Unlocked then
      if reqLen ext.Requirements = 0 then
        .ok ({ ext with
                State := .Locked
                PendingOwner := some source
                Owner := some source },
             [⟨source, .successS fresh sigId⟩],
             ["locked"], fresh + 1)
      else
        let out := lockLoop (ext.Requirements.getD []) "lock" .Locking fresh
        .ok ({ ext with
                State := .Locking
                ReqID := some sigId
                PendingOwner := some source
                PendingID := sigId
                Requirements := some out.1 },
             out.2.1, ["locking"], out.2.2)
    else
      .ok (ext, [⟨source, .errorS fresh sigId "not_unlocked"⟩], [], fresh + 1)
  else if sigState = "unlock" then
    if ext.State = .Locked then
      if reqLen ext.Requirements = 0 then
        .ok ({ ext with
                State := .Unlocked
                PendingOwner := none
                Owner := none },
             [⟨source, .successS fresh sigId⟩],
             ["unlocked"], fresh + 1)
      else
        match ext.Owner with
        | none => .error "nil dereference of ext.Owner"
        | some owner =>
          if source = owner then
            let out := lockLoop (ext.Requirements.getD []) "unlock" .Unlocking fresh
            .ok ({ ext with
                    State := .Unlocking
                    ReqID := some sigId
                    PendingOwner := none
                    PendingID := sigId
                    Requirements := some out.1 },
                 out.2.1, ["unlocking"], out.2.2)
          else
            .ok (ext, [], [], fresh)
    else
      .ok (ext, [⟨source, .errorS fresh sigId "not_locked"⟩], [], fresh + 1)
  else .ok (ext, [], [], fresh)

/-- The abort loop of `HandleErrorSignal`: every requirement currently
Locked gets a fresh unlock signal, is moved to Unlocking with the new
signal id, and a message to it is appended. -/
def abortLoop (entries : List (NodeID × ReqInfo)) (fresh : Nat) :
    List (NodeID × ReqInfo) × Messages × Nat :=
  match entries with
  | [] => ([], [], fresh)
  | (id, info) :: rest =>
    if info.State = .Locked then
      let out := abortLoop rest (fresh + 1)
      ((id, ⟨.Unlocking, fresh⟩) :: out.1,
       (⟨id, .lockS fresh "unlock"⟩ : SendMsg) :: out.2.1,
       out.2.2)
    else
      let out := abortLoop rest fresh
      ((id, info) :: out.1, out.2.1, out.2.2)

/-- `LockableExt.HandleErrorSignal` from part_006, lines 234-268. -/
def LockableExt.HandleErrorSignal (ext : LockableExt) (nodeId : NodeID)
    (source : NodeID) (errStr : String) (fresh : Nat) :
    Except String HandlerOut :=
  if errStr = "not_unlocked" then
    let changes : Changes := Changes.add [] ["requirements"]
    if ext.State = .Locking then
      let req_info0 := (reqGet ext.Requirements source).getD ⟨.Unlocked, zeroUUID⟩
      match reqSet ext.Requirements source { req_info0 with State := .Unlocked } with
      | .error e => .error e
      | .ok reqs1 =>
        let out := abortLoop (reqs1.getD []) fresh
        .ok ({ ext with State := .AbortingLock, Requirements := some out.1 },
             out.2.1, changes, out.2.2)
    else
      .ok (ext, [], changes, fresh)
  else if errStr = "not_locked" then
    .error "RECEIVED not_locked, meaning a node thought it held a lock it didn\x27t"
  else .ok (ext, [], [], fresh)

/-- `LockableExt.HandleSuccessSignal` from part_006, lines 308-391. -/
def LockableExt.HandleSuccessSignal (ext : LockableExt) (nodeId : NodeID)
    (source : NodeID) (reqId : UUID) (fresh : Nat) :
    Except String HandlerOut :=
  if source = nodeId then .ok (ext, [], [], fresh)
  else
    match reqGet ext.Requirements source with
    | none => .ok (ext, [], [], fresh)
    | some info =>
      if info.MsgID ≠ reqId then .ok (ext, [], [], fresh)
      else if info.State = .Locking then
        if ext.State = .Locking then
          match reqSet ext.Requirements source ⟨.Locked, zeroUUID⟩ with
          | .error e => .error e
          | .ok reqs1 =>
            let entries := reqs1.getD []
            if countState entries .Locked = entries.length then
              match ext.PendingOwner with
              | none => .error "nil dereference of ext.Owner"
              | some owner =>
                .ok ({ ext with State := .Locked, Owner := ext.PendingOwner,
                                Requirements := reqs1 },
                     [⟨owner, .successS fresh ext.PendingID⟩], ["locked"], fresh + 1)
            else
              .ok ({ ext with Requirements := reqs1 }, [], ["partial_lock"], fresh)
        else if ext.State = .AbortingLock then
          match reqSet ext.Requirements source ⟨.Unlocking, fresh⟩ with
          | .error e => .error e
          | .ok reqs1 =>
            .ok ({ ext with Requirements := reqs1 },
                 [⟨source, .lockS fresh "unlock"⟩], [], fresh + 1)
        else .ok (ext, [], [], fresh)
      else if info.State = .Unlocking then
        match reqSet ext.Requirements source ⟨.Unlocked, zeroUUID⟩ with
        | .error e => .error e
        | .ok reqs1 =>
          let entries := reqs1.getD []
          if countState entries .Unlocked = entries.length then
            if ext.State = .Unlocking then
              match ext.Owner with
              | none => .error "nil dereference of ext.Owner"
              | some previous_owner =>
                .ok ({ ext with State := .Unlocked, Owner := ext.PendingOwner,
                                ReqID := none, Requirements := reqs1 },
                     [⟨previous_owner, .successS fresh ext.PendingID⟩],
                     ["unlocked"], fresh + 1)
            else if ext.State = .AbortingLock then
              match ext.ReqID, ext.PendingOwner with
              | none, _ => .error "nil dereference of ext.ReqID"
              | some _, none => .error "nil dereference of ext.PendingOwner"
              | some reqid, some pending =>
                .ok ({ ext with State := .Unlocked, PendingOwner := ext.Owner,
                                Requirements := reqs1 },
                     [⟨pending, .errorS fresh reqid "not_unlocked"⟩],
                     ["lock_aborted"], fresh + 1)
            else
              .ok ({ ext with State := .Unlocked, Requirements := reqs1 },
                   [], [], fresh)
          else
            .ok ({ ext with Requirements := reqs1 }, [], ["partial_unlock"], fresh)
      else .ok (ext, [], [], fresh)

/-- `LockableExt.HandleLinkSignal` from part_006, lines 270-306. -/
def LockableExt.HandleLinkSignal (ext : LockableExt) (nodeId : NodeID)
    (source : NodeID) (sigId : UUID) (sigNode : NodeID) (action : String)
    (fresh : Nat) : Except String HandlerOut :=
  if ext.State = .Unlocked then
    if action = "add" then
      if (reqGet ext.Requirements sigNode).isSome then
        .ok (ext, [⟨source, .errorS fresh sigId "already_requirement"⟩], [], fresh + 1)
      else
        let reqs0 : List (NodeID × ReqInfo) := ext.Requirements.getD []
        .ok ({ ext with Requirements := some (setEntry reqs0 sigNode ⟨.Unlocked, zeroUUID⟩) },
             [⟨source, .successS fresh sigId⟩], ["requirement_added"], fresh + 1)
    else if action = "remove" then
      if (reqGet ext.Requirements sigNode).isSome = false then
        .ok (ext, [⟨source, .errorS fresh sigId "can\x27t link: not_requirement"⟩], [], fresh + 1)
      else
        .ok ({ ext with Requirements := reqDel ext.Requirements sigNode },
             [⟨source, .successS fresh sigId⟩], ["requirement_removed"], fresh + 1)
    else
      .ok (ext, [⟨source, .errorS fresh sigId "unknown_action"⟩], [], fresh + 1)
  else
    .ok (ext, [⟨source, .errorS fresh sigId "not_unlocked"⟩], [], fresh + 1)

/-! ## The router: `Context.Send` (src/unnamed/part_007, lines 298-322)

The loop body of `Send` is taken from the source.  The surrounding runtime
pieces of the same revision are not under src/ and are modelled from the
spec: a mailbox is a bounded FIFO queue (`MsgChan`, a buffered channel of
fixed capacity), `ZeroID` is the reserved all-zero NodeID that is never a
valid destination, and `LoadNode` reads the destination from persistence,
failing with `NodeNotFoundError` when it is absent there as well. -/

/-- The reserved zero NodeID.  Modelled from the spec: "A zero ID is
reserved and is never a valid destination." -/
def ZeroID : NodeID := 0

/-- A message as the router sees it: the destination id plus an opaque
payload (the router never inspects the signal, signature or authorization). -/
structure GMessage where
  dest : NodeID
  payload : Nat
deriving DecidableEq, Repr

/-- Modelled from the spec: a node as the router sees it, a bounded mailbox
(`MsgChan` buffered channel) with capacity `cap` and queued messages
`mbox`, oldest first. -/
structure MailNode where
  cap : Nat
  mbox : List GMessage
deriving DecidableEq, Repr

/-- Generic association-list read used for the node maps. -/
def alGet {β : Type} : List (NodeID × β) → NodeID → Option β
  | [], _ => none
  | (k', v) :: rest, k => if k' = k then some v else alGet rest k

/-- Generic association-list write: replace the first binding or append. -/
def alSet {β : Type} : List (NodeID × β) → NodeID → β → List (NodeID × β)
  | [], k, v => [(k, v)]
  | (k', v') :: rest, k, v =>
    if k' = k then (k, v) :: rest else (k', v') :: alSet rest k v

/-- The routing state of a `Context`: the local node map, plus the nodes
available from persistence (modelled from the spec as a read-only map). -/
structure SendCtx where
  nodeMap : List (NodeID × MailNode)
  persisted : List (NodeID × MailNode)
deriving DecidableEq, Repr

/-- `Context.getNode` (part_007, lines 284-295): look the id up locally,
else load it from persistence (the loaded node joins the local map); `none`
is the `NodeNotFoundError` case. -/
def ctxGetNode (ctx : SendCtx) (id : NodeID) : Option (SendCtx × MailNode) :=
  match alGet ctx.nodeMap id with
  | some node => some (ctx, node)
  | none =>
    match alGet ctx.persisted id with
    | some node => some ({ ctx with nodeMap := alSet ctx.nodeMap id node }, node)
    | none => none

/-- How one iteration of the `Send` loop can fail: the panic on a zero
destination, the non-blocking-enqueue overflow, and `NodeNotFoundError`. -/
inductive SendFailure where
  | panicNullId : SendFailure
  | overflow (dest : NodeID) : SendFailure
  | nodeNotFound (dest : NodeID) : SendFailure
deriving DecidableEq, Repr

/-- Result of one iteration of the `Send` loop over one message. -/
inductive StepResult where
  | ok (ctx : SendCtx) : StepResult
  | fail (f : SendFailure) (ctx : SendCtx) : StepResult
deriving DecidableEq, Repr

/-- The body of the `Send` loop (part_007, lines 299-320): panic on ZeroID;
look up the target; try a non-blocking enqueue into its mailbox, returning
the overflow error when the mailbox is full; return `NodeNotFoundError`
when the node is absent locally and from persistence. -/
def sendStep (ctx : SendCtx) (msg : GMessage) : StepResult :=
  if msg.dest = ZeroID then .fail .panicNullId ctx
  else
    match ctxGetNode ctx msg.dest with
    | some (ctx1, node) =>
      if node.mbox.length < node.cap then
        .ok { ctx1 with
               nodeMap := alSet ctx1.nodeMap msg.dest
                 { node with mbox := node.mbox ++ [msg] } }
      else .fail (.overflow msg.dest) ctx1
    | none => .fail (.nodeNotFound msg.dest) ctx

/-- `Context.Send` (part_007, lines 298-322): process the messages in
order, stopping at the first failure; returns the resulting routing state
and the failure, if any. -/
def Context.Send (ctx : SendCtx) : List GMessage → SendCtx × Option SendFailure
  | [] => (ctx, none)
  | msg :: rest =>
    match sendStep ctx msg with
    | .ok ctx1 => Context.Send ctx1 rest
    | .fail f ctx1 => (ctx1, some f)

/-- The mailbox of node `d` observable in routing state `ctx` (a node that
is only in persistence has its persisted mailbox). -/
def mboxOf (ctx : SendCtx) (d : NodeID) : Option (List GMessage) :=
  match alGet ctx.nodeMap d with
  | some node => some node.mbox
  | none => (alGet ctx.persisted d).map MailNode.mbox

/-! ## `Changes.Add` from src/extension.go (lines 20-24)

```
func (changes *Changes) Add(fields ...string) \x7b
  new_changes := append(*changes, fields...)
  changes = &new_changes
\x7d
```

The body computes the appended slice into `new_changes` but then reassigns
the local pointer parameter `changes` instead of storing through it, so the
slice the caller passed is never updated.  The embedding returns both the
local `new_changes` value and the value the caller observes after the call
returns. -/

/-- `Changes.Add` from src/extension.go: first component is the local
`new_changes` slice the body computes, second component is the value of the
argument slice as the caller sees it after `Add` returns. -/
def changesAddResult (changes : Changes) (fields : List String) :
    Changes × Changes :=
  let new_changes := List.append changes fields
  (new_changes, changes)

/-! ## `SerializeSignal` padding (src/signal.go, lines 495-523) -/

/-- `SIGNAL_SER_HEADER_LENGTH` from src/signal.go. -/
def SIGNAL_SER_HEADER_LENGTH : Nat := 20

/-- The `pad_req` computation of `SerializeSignal` for a serialized body of
`n` bytes and cipher block size `blockSize`. -/
def padReq (blockSize n : Nat) : Nat :=
  if blockSize > 0 then
    let pad := blockSize - ((SIGNAL_SER_HEADER_LENGTH + n) % blockSize)
    if pad ≠ blockSize then pad else 0
  else 0

/-- The value `SerializeSignal` records in the header length field:
`len(signal_ser) + pad_req`. -/
def headerLengthField (n blockSize : Nat) : Nat := n + padReq blockSize n

/-- The total length of the buffer `SerializeSignal` returns:
`SIGNAL_SER_HEADER_LENGTH + len(signal_ser) + pad_req`. -/
def serializedLength (n blockSize : Nat) : Nat :=
  SIGNAL_SER_HEADER_LENGTH + n + padReq blockSize n

/-- The inductive invariant of the lockable state machine: the (amended)
Owner/State correspondence, plus the auxiliary facts needed to preserve
it: a Locking or AbortingLock extension has a pending owner, a request id
and a non-nil Requirements map; an Unlocking extension has no pending
owner; and outside Unlocking/AbortingLock no requirement is Unlocking. -/
def LockableInv (ext : LockableExt) : Prop :=
  (ext.Owner ≠ none ↔ (ext.State = .Locked ∨ ext.State = .Unlocking)) ∧
  ((ext.State = .Locking ∨ ext.State = .AbortingLock) →
      ext.PendingOwner ≠ none ∧ ext.ReqID ≠ none ∧ ext.Requirements ≠ none) ∧
  (ext.State = .Unlocking → ext.PendingOwner = none) ∧
  ((ext.State = .Unlocked ∨ ext.State = .Locked ∨ ext.State = .Locking) →
      ∀ p ∈ ext.Requirements.getD [], p.2.State ≠ .Unlocking)

/-! ## Association-list and counting lemmas -/

theorem lookupEntry_mem {l : List (NodeID × ReqInfo)} {k : NodeID} {v : ReqInfo}
    (h : lookupEntry l k = some v) : (k, v) ∈ l := by
  induction l with
  | nil => simp [lookupEntry] at h
  | cons p rest ih =>
    obtain ⟨k', v'⟩ := p
    simp only [lookupEntry] at h
    split at h
    · next heq =>
      injection h with h
      subst heq; subst h
      exact List.mem_cons_self _ _
    · exact List.mem_cons_of_mem _ (ih h)

theorem setEntry_mem {l : List (NodeID × ReqInfo)} {k : NodeID} {v : ReqInfo}
    {p : NodeID × ReqInfo} (h : p ∈ setEntry l k v) : p = (k, v) ∨ p ∈ l := by
  induction l with
  | nil => simp [setEntry] at h; exact Or.inl h
  | cons q rest ih =>
    obtain ⟨k', v'⟩ := q
    simp only [setEntry] at h
    split at h
    · rcases List.mem_cons.mp h with h | h
      · exact Or.inl h
      · exact Or.inr (List.mem_cons_of_mem _ h)
    · rcases List.mem_cons.mp h with h | h
      · exact Or.inr (h ▸ List.mem_cons_self _ _)
      · rcases ih h with h | h
        · exact Or.inl h
        · exact Or.inr (List.mem_cons_of_mem _ h)

theorem lookupEntry_setEntry_self (l : List (NodeID × ReqInfo)) (k : NodeID)
    (v : ReqInfo) : lookupEntry (setEntry l k v) k = some v := by
  induction l with
  | nil => simp [setEntry, lookupEntry]
  | cons q rest ih =>
    obtain ⟨k', v'⟩ := q
    simp only [setEntry]
    split
    · simp [lookupEntry]
    · next hne => simp only [lookupEntry, if_neg hne, ih]

theorem lookupEntry_none_of_all_ne {l : List (NodeID × ReqInfo)} {k : NodeID}
    (h : ∀ p ∈ l, p.1 ≠ k) : lookupEntry l k = none := by
  induction l with
  | nil => rfl
  | cons q rest ih =>
    obtain ⟨k', v'⟩ := q
    have hk : k' ≠ k := h (k', v') (List.mem_cons_self _ _)
    simp only [lookupEntry, if_neg hk]
    exact ih (fun p hp => h p (List.mem_cons_of_mem _ hp))

theorem reqGet_reqDel_self (m : ReqMap) (k : NodeID) :
    reqGet (reqDel m k) k = none := by
  match m with
  | none => rfl
  | some l =>
    simp only [reqDel, reqGet]
    refine lookupEntry_none_of_all_ne ?_
    intro p hp
    have := List.mem_filter.mp hp
    simpa using this.2

theorem countState_all {l : List (NodeID × ReqInfo)} {s : ReqState}
    (h : countState l s = l.length) : ∀ p ∈ l, p.2.State = s := by
  induction l with
  | nil => intro p hp; simp at hp
  | cons q rest ih =>
    intro p hp
    have hle := List.length_filter_le (fun p => decide (p.2.State = s)) rest
    simp only [countState, List.filter_cons] at h
    by_cases hq : q.2.State = s
    · rw [if_pos (by simpa using hq)] at h
      simp only [List.length_cons] at h
      have h' : countState rest s = rest.length := by
        simp only [countState]; omega
      rcases List.mem_cons.mp hp with rfl | hp
      · exact hq
      · exact ih h' p hp
    · rw [if_neg (by simpa using hq)] at h
      simp only [List.length_cons] at h
      exfalso; omega

theorem lockLoop_states (entries : List (NodeID × ReqInfo)) (st : String)
    (rs : ReqState) (f : Nat) :
    ∀ p ∈ (lockLoop entries st rs f).1, p.2.State = rs := by
  induction entries generalizing f with
  | nil => intro p hp; simp [lockLoop] at hp
  | cons q rest ih =>
    intro p hp
    obtain ⟨id, info⟩ := q
    simp only [lockLoop] at hp
    rcases List.mem_cons.mp hp with rfl | hp
    · rfl
    · exact ih (f + 1) p hp

theorem foldl_setEntry_mem (ids : List NodeID) (v0 : ReqInfo) :
    ∀ (init : List (NodeID × ReqInfo)) (p : NodeID × ReqInfo),
      p ∈ ids.foldl (fun m id => setEntry m id v0) init → p ∈ init ∨ p.2 = v0 := by
  induction ids with
  | nil => intro init p hp; exact Or.inl hp
  | cons a rest ih =>
    intro init p hp
    rcases ih (setEntry init a v0) p hp with h | h
    · rcases setEntry_mem h with h | h
      · exact Or.inr (by rw [h])
      · exact Or.inl h
    · exact Or.inr h

/-! ## C8: `Changes.Add` does not persist the appended slice -/

/-- C8 (code defect, recorded by the spec itself): after `Changes.Add` from
src/extension.go runs, the caller was supposed to observe its previous
field names followed by the appended ones, but the body only reassigns a
local pointer, so the caller observes its original unchanged value: at the
failing input (empty changes, appending "locked") the caller still holds
the empty list. -/
theorem changes_add_not_visible :
    (changesAddResult [] ["locked"]).1 = ["locked"] ∧
    (changesAddResult [] ["locked"]).2 = [] ∧
    (changesAddResult [] ["locked"]).2 ≠ ["locked"] := by
  refine ⟨rfl, rfl, ?_⟩
  simp [changesAddResult]

/-! ## C9: `SerializeSignal` padding -/

/-- C9, counterexample: for block size 16 and a serialized signal body of
12 bytes, `SerializeSignal` adds no padding, and the value recorded in the
header length field is 12, which is not a multiple of the block size — the
claim that the recorded body length is always a multiple of the block size
is false. -/
theorem serialize_signal_body_length_counterexample :
    0 < 16 ∧ padReq 16 12 = 0 ∧ headerLengthField 12 16 = 12 ∧
    ¬ headerLengthField 12 16 % 16 = 0 := by decide

theorem pad_mod (t B : Nat) (hB : 0 < B) :
    (t + (if B - t % B ≠ B then B - t % B else 0)) % B = 0 := by
  rcases eq_or_ne (t % B) 0 with h0 | h0
  · have hBB : B - t % B = B := by rw [h0, Nat.sub_zero]
    rw [hBB, if_neg (by simp)]
    simpa using h0
  · have hlt : t % B < B := Nat.mod_lt _ hB
    have hne : B - t % B ≠ B := by omega
    rw [if_pos hne]
    have hq := Nat.div_add_mod t B
    have ht : t + (B - t % B) = B * (t / B + 1) := by
      rw [Nat.mul_add, Nat.mul_one]
      omega
    rw [ht, Nat.mul_mod_right]

/-- C9, amended: `SerializeSignal` pads the body so that the TOTAL length
of the returned buffer (the 20-byte header plus the padded body) is a
multiple of the positive cipher block size; the header length field itself
equals body length plus padding and need not be a multiple of the block
size. -/
theorem serialize_signal_padding_amended (n B : Nat) (hB : 0 < B) :
    serializedLength n B % B = 0 := by
  simp only [serializedLength, padReq, SIGNAL_SER_HEADER_LENGTH, if_pos hB]
  exact pad_mod (20 + n) B hB

/-- C9, witness: at body length 12 and block size 16 the returned buffer
has length 32, a multiple of 16. -/
theorem serialize_signal_padding_witness :
    serializedLength 12 16 % 16 = 0 :=
  serialize_signal_padding_amended 12 16 (by decide)

/-! ## C4: `HandleLinkSignal` -/

/-- C4, counterexample: removing an id that is not a requirement replies
with the error string "can\x27t link: not_requirement", not the bare
"not_requirement" the claim states: concretely, an Unlocked lockable with a
nil Requirements map handling `Link("remove", 2)` from node 1. -/
theorem link_remove_error_string_counterexample :
    (NewLockableExt none).HandleLinkSignal 0 1 5 2 "remove" 7 =
      .ok (NewLockableExt none,
           [⟨1, .errorS 7 5 "can\x27t link: not_requirement"⟩], [], 8) ∧
    "can\x27t link: not_requirement" ≠ "not_requirement" :=
  ⟨rfl, by decide⟩

/-- C4, amended: a LinkSignal is acted on only in state Unlocked: adding an
absent id inserts it (with state Unlocked and the zero uuid) and replies
Success; adding a present id replies Error "already_requirement" leaving
the extension unchanged; removing an absent id replies the Error string
"can\x27t link: not_requirement" leaving the extension unchanged; removing a
present id deletes it and replies Success.  In any other state the reply is
Error "not_unlocked" and the extension is unchanged. -/
theorem link_signal_handling_amended (ext : LockableExt) (nodeId source : NodeID)
    (sigId : UUID) (sigNode : NodeID) (f : Nat) :
    (ext.State = .Unlocked →
      (reqGet ext.Requirements sigNode = none →
        ext.HandleLinkSignal nodeId source sigId sigNode "add" f =
          .ok ({ ext with Requirements := some (setEntry (ext.Requirements.getD []) sigNode ⟨.Unlocked, zeroUUID⟩) },
               [⟨source, .successS f sigId⟩], ["requirement_added"], f + 1) ∧
        reqGet (some (setEntry (ext.Requirements.getD []) sigNode ⟨.Unlocked, zeroUUID⟩)) sigNode
          = some ⟨.Unlocked, zeroUUID⟩) ∧
      (∀ info, reqGet ext.Requirements sigNode = some info →
        ext.HandleLinkSignal nodeId source sigId sigNode "add" f =
          .ok (ext, [⟨source, .errorS f sigId "already_requirement"⟩], [], f + 1)) ∧
      (reqGet ext.Requirements sigNode = none →
        ext.HandleLinkSignal nodeId source sigId sigNode "remove" f =
          .ok (ext, [⟨source, .errorS f sigId "can\x27t link: not_requirement"⟩], [], f + 1)) ∧
      (∀ info, reqGet ext.Requirements sigNode = some info →
        ext.HandleLinkSignal nodeId source sigId sigNode "remove" f =
          .ok ({ ext with Requirements := reqDel ext.Requirements sigNode },
               [⟨source, .successS f sigId⟩], ["requirement_removed"], f + 1) ∧
        reqGet (reqDel ext.Requirements sigNode) sigNode = none)) ∧
    (ext.State ≠ .Unlocked → ∀ action,
      ext.HandleLinkSignal nodeId source sigId sigNode action f =
        .ok (ext, [⟨source, .errorS f sigId "not_unlocked"⟩], [], f + 1)) := by
  constructor
  · intro hU
    refine ⟨?_, ?_, ?_, ?_⟩
    · intro hget
      constructor
      · unfold LockableExt.HandleLinkSignal
        rw [if_pos hU, if_pos rfl, hget]
        rfl
      · exact lookupEntry_setEntry_self _ _ _
    · intro info hget
      unfold LockableExt.HandleLinkSignal
      rw [if_pos hU, if_pos rfl, hget]
      rfl
    · intro hget
      unfold LockableExt.HandleLinkSignal
      rw [if_pos hU, if_neg (by decide), if_pos rfl, hget]
      rfl
    · intro info hget
      constructor
      · unfold LockableExt.HandleLinkSignal
        rw [if_pos hU, if_neg (by decide), if_pos rfl, hget]
        rfl
      · exact reqGet_reqDel_self _ _
  · intro hU action
    unfold LockableExt.HandleLinkSignal
    rw [if_neg hU]

/-- C4, witness: adding node 2 as a requirement of an Unlocked lockable
with a nil Requirements map inserts it and replies Success. -/
theorem link_signal_handling_witness :
    (NewLockableExt none).HandleLinkSignal 0 1 5 2 "add" 7 =
      .ok ({ NewLockableExt none with Requirements := some (setEntry ((NewLockableExt none).Requirements.getD []) 2 ⟨.Unlocked, zeroUUID⟩) },
           [⟨1, .successS 7 5⟩], ["requirement_added"], 8) ∧
    reqGet (some (setEntry ((NewLockableExt none).Requirements.getD []) 2 ⟨.Unlocked, zeroUUID⟩)) 2
      = some ⟨.Unlocked, zeroUUID⟩ :=
  ((link_signal_handling_amended (NewLockableExt none) 0 1 5 2 7).1 rfl).1 rfl

/-! ## C6: `HandleErrorSignal` and panics -/

/-- C6, counterexample: processing an ErrorSignal with the remotely
supplied error string "not_locked" panics (the deliberate internal
corruption assertion), so the claim that the handler never panics for
every error payload is false; concretely on a fresh lockable. -/
theorem error_signal_not_locked_panics :
    (NewLockableExt none).HandleErrorSignal 0 1 "not_locked" 7 =
      .error "RECEIVED not_locked, meaning a node thought it held a lock it didn\x27t" :=
  rfl

/-- C6, amended: for every error string other than "not_locked" the
handler completes without panicking (given the reachable-state fact that a
Locking lockable has a non-nil Requirements map); on "not_locked" it
panics deliberately. -/
theorem error_signal_no_panic_amended (ext : LockableExt) (nodeId source : NodeID)
    (errStr : String) (f : Nat) (h1 : errStr ≠ "not_locked")
    (h2 : ext.State = .Locking → ext.Requirements ≠ none) :
    (ext.HandleErrorSignal nodeId source errStr f).isOk = true := by
  unfold LockableExt.HandleErrorSignal
  by_cases hu : errStr = "not_unlocked"
  · rw [if_pos hu]
    by_cases hl : ext.State = .Locking
    · rw [if_pos hl]
      obtain ⟨l, hl'⟩ := Option.ne_none_iff_exists'.mp (h2 hl)
      rw [hl']
      rfl
    · rw [if_neg hl]
      rfl
  · rw [if_neg hu, if_neg h1]
    rfl

/-- C6, witness: a fresh lockable processes the error string
"not_unlocked" without panicking. -/
theorem error_signal_no_panic_witness :
    ((NewLockableExt none).HandleErrorSignal 0 1 "not_unlocked" 7).isOk = true :=
  error_signal_no_panic_amended (NewLockableExt none) 0 1 "not_unlocked" 7
    (by decide) (by decide)

/-! ## C2: locking an Unlocked lockable without requirements -/

/-- C2: an Unlocked lockable with an empty or nil Requirements map handling
`Lock("lock")` from source `source` moves to Locked, sets Owner and
PendingOwner to the source, and emits exactly one SuccessSignal addressed
to the source whose ReqID is the incoming signal id. -/
theorem lock_unlocked_no_requirements (ext : LockableExt) (nodeId source : NodeID)
    (sigId : UUID) (f : Nat)
    (h1 : ext.State = .Unlocked) (h2 : reqLen ext.Requirements = 0) :
    ext.HandleLockSignal nodeId source sigId "lock" f =
      .ok ({ ext with State := .Locked, PendingOwner := some source, Owner := some source },
           [⟨source, .successS f sigId⟩], ["locked"], f + 1) := by
  unfold LockableExt.HandleLockSignal
  rw [if_pos rfl, if_pos h1, if_pos h2]

/-- C2, witness: a fresh lockable with nil requirements locked by node 5. -/
theorem lock_unlocked_no_requirements_witness :
    (NewLockableExt none).HandleLockSignal 0 5 10 "lock" 20 =
      .ok ({ NewLockableExt none with State := .Locked, PendingOwner := some 5, Owner := some 5 },
           [⟨5, .successS 20 10⟩], ["locked"], 21) :=
  lock_unlocked_no_requirements (NewLockableExt none) 0 5 10 20 rfl rfl

/-! ## C3: lock/unlock rejected during a transition -/

/-- C3: while the state is Locking, Unlocking or AbortingLock, an incoming
`Lock("lock")` is answered with Error "not_unlocked" to the sender, and an
incoming `Lock("unlock")` from a node that is not the pending owner of the
current transaction is answered with Error "not_locked"; neither signal
changes the extension. -/
theorem lock_rejected_while_transition (ext : LockableExt) (nodeId source : NodeID)
    (sigId : UUID) (f : Nat)
    (h : ext.State = .Locking ∨ ext.State = .Unlocking ∨ ext.State = .AbortingLock)
    (howner : ext.PendingOwner ≠ some source) :
    ext.HandleLockSignal nodeId source sigId "lock" f =
      .ok (ext, [⟨source, .errorS f sigId "not_unlocked"⟩], [], f + 1) ∧
    ext.HandleLockSignal nodeId source sigId "unlock" f =
      .ok (ext, [⟨source, .errorS f sigId "not_locked"⟩], [], f + 1) := by
  have hu : ext.State ≠ .Unlocked := by rcases h with h | h | h <;> simp [h]
  have hl : ext.State ≠ .Locked := by rcases h with h | h | h <;> simp [h]
  constructor
  · unfold LockableExt.HandleLockSignal
    rw [if_pos rfl, if_neg hu]
  · unfold LockableExt.HandleLockSignal
    rw [if_neg (by decide), if_pos rfl, if_neg hl]

/-- C3, witness: a Locking lockable whose pending owner is node 2 rejects
both a lock and an unlock request from node 3. -/
theorem lock_rejected_while_transition_witness :
    (⟨.Locking, some 10, none, some 2, 10, some [(1, ⟨.Locking, 20⟩)]⟩ :
        LockableExt).HandleLockSignal 0 3 11 "lock" 30 =
      .ok (⟨.Locking, some 10, none, some 2, 10, some [(1, ⟨.Locking, 20⟩)]⟩,
           [⟨3, .errorS 30 11 "not_unlocked"⟩], [], 31) ∧
    (⟨.Locking, some 10, none, some 2, 10, some [(1, ⟨.Locking, 20⟩)]⟩ :
        LockableExt).HandleLockSignal 0 3 11 "unlock" 30 =
      .ok (⟨.Locking, some 10, none, some 2, 10, some [(1, ⟨.Locking, 20⟩)]⟩,
           [⟨3, .errorS 30 11 "not_locked"⟩], [], 31) :=
  lock_rejected_while_transition
    ⟨.Locking, some 10, none, some 2, 10, some [(1, ⟨.Locking, 20⟩)]⟩ 0 3 11 30
    (Or.inl rfl) (by decide)

/-! ## C5: `HandleSuccessSignal` ignores unmatched responses -/

/-- C5: a SuccessSignal from a source that is not a key of the
Requirements map, or whose ReqID differs from that requirement's in-flight
MsgID, leaves the whole extension unchanged and emits no messages and no
changes. -/
theorem success_mismatch_ignored (ext : LockableExt) (nodeId source : NodeID)
    (reqId : UUID) (f : Nat)
    (h : reqGet ext.Requirements source = none ∨
         ∃ info, reqGet ext.Requirements source = some info ∧ info.MsgID ≠ reqId) :
    ext.HandleSuccessSignal nodeId source reqId f = .ok (ext, [], [], f) := by
  unfold LockableExt.HandleSuccessSignal
  by_cases hs : source = nodeId
  · rw [if_pos hs]
  · rw [if_neg hs]
    rcases h with h | ⟨info, hinfo, hne⟩
    · rw [h]
    · rw [hinfo]
      simp only [if_pos hne]

/-- C5, witness: a Locking lockable with requirement 1 awaiting message 20
ignores a Success from node 1 correlated to request 99. -/
theorem success_mismatch_ignored_witness :
    (⟨.Locking, some 10, none, some 2, 10, some [(1, ⟨.Locking, 20⟩)]⟩ :
        LockableExt).HandleSuccessSignal 0 1 99 30 =
      .ok (⟨.Locking, some 10, none, some 2, 10, some [(1, ⟨.Locking, 20⟩)]⟩,
           [], [], 30) :=
  success_mismatch_ignored
    ⟨.Locking, some 10, none, some 2, 10, some [(1, ⟨.Locking, 20⟩)]⟩ 0 1 99 30
    (Or.inr ⟨⟨.Locking, 20⟩, rfl, by decide⟩)

/-! ## C1 lemmas: the Owner/State invariant -/

theorem reqSet_ok {m : ReqMap} {k : NodeID} {v : ReqInfo} {m2 : ReqMap}
    (h : reqSet m k v = .ok m2) :
    ∃ l, m = some l ∧ m2 = some (setEntry l k v) := by
  match m with
  | none => simp [reqSet] at h
  | some l =>
    simp only [reqSet] at h
    injection h with h
    exact ⟨l, rfl, h.symm⟩

theorem inv_init (reqs : Option (List NodeID)) : LockableInv (NewLockableExt reqs) := by
  refine ⟨by simp [NewLockableExt], by simp [NewLockableExt],
          by simp [NewLockableExt], ?_⟩
  intro _ p hp
  cases reqs with
  | none => simp [NewLockableExt] at hp
  | some ids =>
    simp only [NewLockableExt, Option.getD] at hp
    rcases foldl_setEntry_mem ids ⟨.Unlocked, zeroUUID⟩ [] p hp with h | h
    · simp at h
    · rw [h]; decide

theorem inv_preserved_lock (ext : LockableExt) (n s : NodeID) (sigId : UUID)
    (st : String) (f : Nat) (out : HandlerOut) (hInv : LockableInv ext)
    (h : ext.HandleLockSignal n s sigId st f = .ok out) : LockableInv out.1 := by
  obtain ⟨hA, hB, hC, hD⟩ := hInv
  unfold LockableExt.HandleLockSignal at h
  split at h
  · -- st = "lock"
    split at h
    · -- ext.State = .Unlocked
      rename_i h2
      have hO : ext.Owner = none := by
        by_contra hc
        rcases hA.mp hc with h' | h' <;> rw [h2] at h' <;> cases h'
      split at h
      · -- no requirements
        injection h with h; subst h
        refine ⟨by simp, by simp, by simp, ?_⟩
        intro _ p hp
        exact hD (Or.inl h2) p hp
      · -- fan out to requirements
        injection h with h; subst h
        refine ⟨by simp [hO], by simp, by simp, ?_⟩
        intro _ p hp
        have := lockLoop_states (ext.Requirements.getD []) "lock" .Locking f p (by simpa using hp)
        rw [this]; decide
    · -- not Unlocked: reply not_unlocked, unchanged
      injection h with h; subst h
      exact ⟨hA, hB, hC, hD⟩
  · split at h
    · -- st = "unlock"
      split at h
      · -- ext.State = .Locked
        rename_i h2
        split at h
        · -- no requirements: unlock immediately
          injection h with h; subst h
          refine ⟨by simp, by simp, by simp, ?_⟩
          intro _ p hp
          exact hD (Or.inr (Or.inl h2)) p hp
        · -- dereference Owner
          split at h
          · exact Except.noConfusion h
          · rename_i o hOwn
            split at h
            · -- source is the owner: start unlocking
              injection h with h; subst h
              refine ⟨by simp [hOwn], by simp, by simp, by simp⟩
            · -- source is not the owner: no change
              injection h with h; subst h
              exact ⟨hA, hB, hC, hD⟩
      · -- not Locked: reply not_locked, unchanged
        injection h with h; subst h
        exact ⟨hA, hB, hC, hD⟩
    · -- unknown state string: unchanged
      injection h with h; subst h
      exact ⟨hA, hB, hC, hD⟩

theorem inv_preserved_error (ext : LockableExt) (n s : NodeID) (es : String)
    (f : Nat) (out : HandlerOut) (hInv : LockableInv ext)
    (h : ext.HandleErrorSignal n s es f = .ok out) : LockableInv out.1 := by
  obtain ⟨hA, hB, hC, hD⟩ := hInv
  unfold LockableExt.HandleErrorSignal at h
  split at h
  · -- es = "not_unlocked"
    split at h
    · -- ext.State = .Locking: abort the lock
      rename_i hsL
      dsimp only at h
      split at h
      · exact Except.noConfusion h
      · rename_i reqs1 heq
        injection h with h; subst h
        have hO : ext.Owner = none := by
          by_contra hc
          rcases hA.mp hc with h' | h' <;> rw [hsL] at h' <;> cases h'
        obtain ⟨hPO, hRID, _⟩ := hB (Or.inl hsL)
        exact ⟨by simp [hO], fun _ => ⟨by simpa using hPO, by simpa using hRID, by simp⟩,
               by simp, by simp⟩
    · -- not Locking: unchanged
      injection h with h; subst h
      exact ⟨hA, hB, hC, hD⟩
  · split at h
    · -- "not_locked" panics
      exact Except.noConfusion h
    · injection h with h; subst h
      exact ⟨hA, hB, hC, hD⟩

theorem inv_preserved_success (ext : LockableExt) (n s : NodeID) (rid : UUID)
    (f : Nat) (out : HandlerOut) (hInv : LockableInv ext)
    (h : ext.HandleSuccessSignal n s rid f = .ok out) : LockableInv out.1 := by
  obtain ⟨hA, hB, hC, hD⟩ := hInv
  unfold LockableExt.HandleSuccessSignal at h
  split at h
  · injection h with h; subst h; exact ⟨hA, hB, hC, hD⟩
  · split at h
    · injection h with h; subst h; exact ⟨hA, hB, hC, hD⟩
    · rename_i info hget
      split at h
      · injection h with h; subst h; exact ⟨hA, hB, hC, hD⟩
      · split at h
        · -- the requirement was Locking
          rename_i hiL
          split at h
          · -- parent Locking
            rename_i hsL
            dsimp only at h
            split at h
            · exact Except.noConfusion h
            · rename_i reqs1 heq
              obtain ⟨l, hm, hm2⟩ := reqSet_ok heq
              split at h
              · -- every requirement Locked: whole lock
                rename_i hcount
                split at h
                · exact Except.noConfusion h
                · rename_i po hpo
                  injection h with h; subst h
                  refine ⟨by simp [hpo], by simp, by simp, ?_⟩
                  intro _ p hp
                  have := countState_all hcount p (by simpa using hp)
                  rw [this]; decide
              · -- partial lock
                injection h with h; subst h
                refine ⟨by simpa using hA, ?_, by simpa using hC, ?_⟩
                · intro hcase
                  obtain ⟨h1', h2', _⟩ := hB (by simpa using hcase)
                  exact ⟨by simpa using h1', by simpa using h2', by simp [hm2]⟩
                · intro hcase p hp
                  rw [hm2] at hp
                  rcases setEntry_mem (by simpa using hp) with rfl | hpl
                  · simp
                  · refine hD (by simpa using hcase) p ?_
                    simp [hm, hpl]
          · split at h
            · -- parent AbortingLock: requirement re-unlocked
              rename_i hsA
              split at h
              · exact Except.noConfusion h
              · rename_i reqs1 heq
                obtain ⟨l, hm, hm2⟩ := reqSet_ok heq
                injection h with h; subst h
                refine ⟨by simpa using hA, ?_, by simpa using hC, ?_⟩
                · intro hcase
                  obtain ⟨h1', h2', _⟩ := hB (by simpa using hcase)
                  exact ⟨by simpa using h1', by simpa using h2', by simp [hm2]⟩
                · intro hcase
                  exfalso
                  rcases (by simpa using hcase :
                      ext.State = .Unlocked ∨ ext.State = .Locked ∨ ext.State = .Locking)
                    with h' | h' | h' <;> rw [hsA] at h' <;> cases h'
            · injection h with h; subst h; exact ⟨hA, hB, hC, hD⟩
        · split at h
          · -- the requirement was Unlocking
            rename_i hiU
            have hmem : (s, info) ∈ ext.Requirements.getD [] := by
              cases hrm : ext.Requirements with
              | none => rw [hrm] at hget; simp [reqGet] at hget
              | some l0 =>
                rw [hrm] at hget
                simp only [reqGet] at hget
                simpa using lookupEntry_mem hget
            have hstate : ¬ (ext.State = .Unlocked ∨ ext.State = .Locked ∨
                ext.State = .Locking) := by
              intro hcase
              exact hD hcase (s, info) hmem hiU
            dsimp only at h
            split at h
            · exact Except.noConfusion h
            · rename_i reqs1 heq
              obtain ⟨l, hm, hm2⟩ := reqSet_ok heq
              split at h
              · -- every requirement Unlocked: whole unlock
                rename_i hcount
                split at h
                · -- parent was Unlocking
                  rename_i hsU
                  split at h
                  · exact Except.noConfusion h
                  · rename_i po hOwn
                    injection h with h; subst h
                    have hPO := hC hsU
                    refine ⟨by simp [hPO], by simp, by simp, ?_⟩
                    intro _ p hp
                    have := countState_all hcount p (by simpa using hp)
                    rw [this]; decide
                · split at h
                  · -- parent was AbortingLock: abort completes
                    rename_i hsA
                    split at h
                    · exact Except.noConfusion h
                    · exact Except.noConfusion h
                    · rename_i reqid pending
                      injection h with h; subst h
                      have hO : ext.Owner = none := by
                        by_contra hc
                        rcases hA.mp hc with h' | h' <;> rw [hsA] at h' <;> cases h'
                      refine ⟨by simp [hO], by simp, by simp, ?_⟩
                      intro _ p hp
                      have := countState_all hcount p (by simpa using hp)
                      rw [this]; decide
                  · -- parent neither Unlocking nor AbortingLock: unreachable
                    rename_i hsU hsA
                    exfalso
                    apply hstate
                    cases hst : ext.State
                    case Unlocked => exact Or.inl rfl
                    case Locked => exact Or.inr (Or.inl rfl)
                    case Locking => exact Or.inr (Or.inr rfl)
                    case Unlocking => rw [hst] at hsU; exact absurd rfl hsU
                    case AbortingLock => rw [hst] at hsA; exact absurd rfl hsA
              · -- partial unlock
                injection h with h; subst h
                refine ⟨by simpa using hA, ?_, by simpa using hC, ?_⟩
                · intro hcase
                  obtain ⟨h1', h2', _⟩ := hB (by simpa using hcase)
                  exact ⟨by simpa using h1', by simpa using h2', by simp [hm2]⟩
                · intro hcase
                  exact absurd (by simpa using hcase) hstate
          · injection h with h; subst h; exact ⟨hA, hB, hC, hD⟩

/-- C1, counterexample: starting from `NewLockableExt` with requirement 1,
a lock request from node 2 moves the extension to Locking with Owner nil;
a subsequent Error "not_unlocked" from requirement 1 moves it to
AbortingLock with Owner still nil — so after a handler run the claimed
invariant (Owner non-null iff State in Locked/Unlocking/AbortingLock) is
false: the state is AbortingLock and Owner is nil. -/
theorem lockable_owner_invariant_counterexample :
    (NewLockableExt (some [1])).HandleLockSignal 0 2 10 "lock" 20 =
      .ok (⟨.Locking, some 10, none, some 2, 10, some [(1, ⟨.Locking, 20⟩)]⟩,
           [⟨1, .lockS 20 "lock"⟩], ["locking"], 21) ∧
    (⟨.Locking, some 10, none, some 2, 10, some [(1, ⟨.Locking, 20⟩)]⟩ :
        LockableExt).HandleErrorSignal 0 1 "not_unlocked" 30 =
      .ok (⟨.AbortingLock, some 10, none, some 2, 10, some [(1, ⟨.Unlocked, 20⟩)]⟩,
           [], ["requirements"], 30) ∧
    ¬ ((⟨.AbortingLock, some 10, none, some 2, 10, some [(1, ⟨.Unlocked, 20⟩)]⟩ :
          LockableExt).Owner ≠ none ↔
        ((⟨.AbortingLock, some 10, none, some 2, 10, some [(1, ⟨.Unlocked, 20⟩)]⟩ :
            LockableExt).State = .Locked ∨
         (⟨.AbortingLock, some 10, none, some 2, 10, some [(1, ⟨.Unlocked, 20⟩)]⟩ :
            LockableExt).State = .Unlocking ∨
         (⟨.AbortingLock, some 10, none, some 2, 10, some [(1, ⟨.Unlocked, 20⟩)]⟩ :
            LockableExt).State = .AbortingLock)) :=
  ⟨rfl, rfl, by decide⟩

/-- C1, amended: Owner is non-null iff State is Locked or Unlocking (in
AbortingLock the Owner is nil, since Locking is entered with a nil Owner);
this correspondence, as part of the inductive invariant `LockableInv`,
holds for every extension produced by `NewLockableExt` and is preserved by
every completed run of `HandleLockSignal`, `HandleErrorSignal` and
`HandleSuccessSignal`. -/
theorem lockable_owner_invariant_amended :
    (∀ reqs, LockableInv (NewLockableExt reqs)) ∧
    (∀ (ext : LockableExt) (n s : NodeID) (sigId : UUID) (st : String) (f : Nat)
       (out : HandlerOut), LockableInv ext →
       ext.HandleLockSignal n s sigId st f = .ok out → LockableInv out.1) ∧
    (∀ (ext : LockableExt) (n s : NodeID) (es : String) (f : Nat)
       (out : HandlerOut), LockableInv ext →
       ext.HandleErrorSignal n s es f = .ok out → LockableInv out.1) ∧
    (∀ (ext : LockableExt) (n s : NodeID) (rid : UUID) (f : Nat)
       (out : HandlerOut), LockableInv ext →
       ext.HandleSuccessSignal n s rid f = .ok out → LockableInv out.1) ∧
    (∀ ext : LockableExt, LockableInv ext →
       (ext.Owner ≠ none ↔ (ext.State = .Locked ∨ ext.State = .Unlocking))) :=
  ⟨inv_init,
   inv_preserved_lock,
   inv_preserved_error,
   inv_preserved_success,
   fun _ h => h.1⟩

/-- C1, witness: the invariant holds for the fresh extension and for the
extension after node 5 locks it. -/
theorem lockable_owner_invariant_witness :
    LockableInv ({ NewLockableExt none with State := .Locked, PendingOwner := some 5, Owner := some 5 }) :=
  lockable_owner_invariant_amended.2.1 (NewLockableExt none) 0 5 10 "lock" 20
    ({ NewLockableExt none with State := .Locked, PendingOwner := some 5, Owner := some 5 },
     [⟨5, .successS 20 10⟩], ["locked"], 21)
    (lockable_owner_invariant_amended.1 none) rfl

/-! ## Router lemmas for C7 and C10 -/

theorem alGet_alSet_self {β : Type} (l : List (NodeID × β)) (k : NodeID) (v : β) :
    alGet (alSet l k v) k = some v := by
  induction l with
  | nil => simp [alSet, alGet]
  | cons q rest ih =>
    obtain ⟨k', v'⟩ := q
    simp only [alSet]
    split
    · simp [alGet]
    · next hne => simp only [alGet, if_neg hne, ih]

theorem alGet_alSet_ne {β : Type} (l : List (NodeID × β)) (k d : NodeID) (v : β)
    (h : d ≠ k) : alGet (alSet l k v) d = alGet l d := by
  have hne : ¬ k = d := fun he => h he.symm
  induction l with
  | nil => simp only [alSet, alGet, if_neg hne]
  | cons q rest ih =>
    obtain ⟨k', v'⟩ := q
    simp only [alSet]
    split
    · next heq =>
      subst heq
      simp only [alGet, if_neg hne]
    · simp only [alGet, ih]

theorem mboxOf_update (ctx : SendCtx) (k : NodeID) (node : MailNode) (d : NodeID) :
    mboxOf { ctx with nodeMap := alSet ctx.nodeMap k node } d =
      if d = k then some node.mbox else mboxOf ctx d := by
  by_cases hd : d = k
  · subst hd
    simp [mboxOf, alGet_alSet_self]
  · simp only [mboxOf, alGet_alSet_ne ctx.nodeMap k d node hd, if_neg hd]

theorem ctxGetNode_mbox {ctx : SendCtx} {id : NodeID} {ctx1 : SendCtx}
    {node : MailNode} (h : ctxGetNode ctx id = some (ctx1, node)) :
    mboxOf ctx id = some node.mbox ∧ (∀ d, mboxOf ctx1 d = mboxOf ctx d) := by
  unfold ctxGetNode at h
  split at h
  · rename_i n1 hn1
    injection h with h
    injection h with h1 h2
    subst h1; subst h2
    refine ⟨?_, fun d => rfl⟩
    unfold mboxOf
    rw [hn1]
  · rename_i hn0
    split at h
    · rename_i n1 hn1
      injection h with h
      injection h with h1 h2
      subst h1; subst h2
      have hbase : mboxOf ctx id = some n1.mbox := by
        unfold mboxOf
        rw [hn0, hn1]
        rfl
      refine ⟨hbase, ?_⟩
      intro d
      rw [mboxOf_update]
      by_cases hd : d = id
      · subst hd; rw [if_pos rfl, hbase]
      · rw [if_neg hd]
    · exact Option.noConfusion h

theorem sendStep_mono (ctx : SendCtx) (m : GMessage) :
    (∀ c', sendStep ctx m = .ok c' →
       ∀ d q, mboxOf ctx d = some q → ∃ t, mboxOf c' d = some (q ++ t)) ∧
    (∀ f c', sendStep ctx m = .fail f c' →
       ∀ d, mboxOf c' d = mboxOf ctx d) := by
  unfold sendStep
  split
  · -- ZeroID: panic, context untouched
    constructor
    · intro c' h; exact StepResult.noConfusion h
    · intro f c' h d
      injection h with h1 h2; subst h2; rfl
  · split
    · rename_i ctxg nodeg hget
      obtain ⟨hmb, hall⟩ := ctxGetNode_mbox hget
      split
    -- enqueue succeeds
      · constructor
        · intro c' h d q hq
          injection h with h
          subst h
          rw [mboxOf_update]
          by_cases hd : d = m.dest
          · subst hd
            rw [if_pos rfl]
            rw [hmb] at hq
            injection hq with hq
            exact ⟨[m], by rw [hq]⟩
          · rw [if_neg hd, hall d]
            exact ⟨[], by rw [List.append_nil, hq]⟩
        · intro f c' h; exact StepResult.noConfusion h
      -- mailbox full: overflow, mailboxes untouched
      · constructor
        · intro c' h; exact StepResult.noConfusion h
        · intro f c' h d
          injection h with h1 h2
          subst h2
          exact hall d
    · constructor
      · intro c' h; exact StepResult.noConfusion h
      · intro f c' h d
        injection h with h1 h2; subst h2; rfl

theorem send_cons_eq (ctx : SendCtx) (m : GMessage) (msgs : List GMessage) :
    Context.Send ctx (m :: msgs) =
      match sendStep ctx m with
      | .ok ctx1 => Context.Send ctx1 msgs
      | .fail f ctx1 => (ctx1, some f) := rfl

theorem send_cons_ok {ctx ctx1 : SendCtx} {m : GMessage}
    (h : sendStep ctx m = .ok ctx1) (msgs : List GMessage) :
    Context.Send ctx (m :: msgs) = Context.Send ctx1 msgs := by
  rw [send_cons_eq, h]

theorem send_cons_fail {ctx ctx1 : SendCtx} {m : GMessage} {f : SendFailure}
    (h : sendStep ctx m = .fail f ctx1) (msgs : List GMessage) :
    Context.Send ctx (m :: msgs) = (ctx1, some f) := by
  rw [send_cons_eq, h]

theorem send_append (msgs1 : List GMessage) :
    ∀ ctx c, Context.Send ctx msgs1 = (c, none) →
      ∀ msgs2, Context.Send ctx (msgs1 ++ msgs2) = Context.Send c msgs2 := by
  induction msgs1 with
  | nil =>
    intro ctx c h msgs2
    unfold Context.Send at h
    injection h with h1 h2
    subst h1
    rfl
  | cons m rest ih =>
    intro ctx c h msgs2
    rw [List.cons_append]
    unfold Context.Send at h
    split at h
    · rename_i ctx1 hstep
      rw [send_cons_ok hstep (rest ++ msgs2)]
      exact ih ctx1 c h msgs2
    · rename_i f ctx1 hstep
      injection h with h1 h2
      exact Option.noConfusion h2

theorem send_mono (msgs : List GMessage) :
    ∀ ctx d q, mboxOf ctx d = some q →
      ∃ t, mboxOf (Context.Send ctx msgs).1 d = some (q ++ t) := by
  induction msgs with
  | nil =>
    intro ctx d q h
    exact ⟨[], by rw [List.append_nil]; exact h⟩
  | cons m rest ih =>
    intro ctx d q h
    cases hstep : sendStep ctx m with
    | ok ctx1 =>
      obtain ⟨t1, h1⟩ := (sendStep_mono ctx m).1 ctx1 hstep d q h
      obtain ⟨t2, h2⟩ := ih ctx1 d (q ++ t1) h1
      rw [send_cons_ok hstep rest]
      exact ⟨t1 ++ t2, by rw [← List.append_assoc]; exact h2⟩
    | fail f ctx1 =>
      rw [send_cons_fail hstep rest]
      refine ⟨[], ?_⟩
      rw [List.append_nil]
      exact ((sendStep_mono ctx m).2 f ctx1 hstep d).trans h

theorem send_enqueued (msgs : List GMessage) :
    ∀ ctx c, Context.Send ctx msgs = (c, none) →
      ∀ msg ∈ msgs, ∃ q, mboxOf c msg.dest = some q ∧ msg ∈ q := by
  induction msgs with
  | nil => intro ctx c h msg hm; simp at hm
  | cons m rest ih =>
    intro ctx c h msg hm
    unfold Context.Send at h
    split at h
    · rename_i ctx1 hstep
      rcases List.mem_cons.mp hm with rfl | hm
      · have hq : ∃ q0, mboxOf ctx1 msg.dest = some q0 ∧ msg ∈ q0 := by
          unfold sendStep at hstep
          split at hstep
          · exact StepResult.noConfusion hstep
          · split at hstep
            · rename_i ctxg nodeg hget
              split at hstep
              · injection hstep with hstep
                subst hstep
                refine ⟨nodeg.mbox ++ [msg], ?_, by simp⟩
                rw [mboxOf_update, if_pos rfl]
              · exact StepResult.noConfusion hstep
            · exact StepResult.noConfusion hstep
        obtain ⟨q0, hq0, hmem⟩ := hq
        obtain ⟨t, ht⟩ := send_mono rest ctx1 msg.dest q0 hq0
        rw [h] at ht
        exact ⟨q0 ++ t, ht, List.mem_append_left _ hmem⟩
      · exact ih ctx1 c h msg hm
    · rename_i f ctx1 hstep
      injection h with h1 h2
      exact Option.noConfusion h2

/-! ## C10: `Context.Send` stops at the first failing message -/

/-- C10: `Context.Send` processes messages in order. If the messages
before `m` all succeed and the loop iteration on `m` fails, the whole call
returns that failure with the routing state reached by the failing
iteration, for EVERY list of later messages (none of which is enqueued);
every earlier message is already in its destination mailbox and stays
there, and every previously queued message is still queued, in order, with
only later arrivals appended after it (no rollback). -/
theorem send_stops_at_first_failure (ctx : SendCtx) (pre : List GMessage)
    (m : GMessage) (post : List GMessage) (c : SendCtx) (f : SendFailure)
    (c2 : SendCtx) (hpre : Context.Send ctx pre = (c, none))
    (hfail : sendStep c m = .fail f c2) :
    Context.Send ctx (pre ++ m :: post) = (c2, some f) ∧
    (∀ msg ∈ pre, ∃ q, mboxOf c2 msg.dest = some q ∧ msg ∈ q) ∧
    (∀ d q, mboxOf ctx d = some q → ∃ t, mboxOf c2 d = some (q ++ t)) := by
  have happ := send_append pre ctx c hpre (m :: post)
  have hsend : Context.Send c (m :: post) = (c2, some f) := by
    unfold Context.Send
    rw [hfail]
  refine ⟨by rw [happ, hsend], ?_, ?_⟩
  · intro msg hm
    obtain ⟨q, hq, hmem⟩ := send_enqueued pre ctx c hpre msg hm
    have hunch := (sendStep_mono c m).2 f c2 hfail msg.dest
    exact ⟨q, by rw [hunch, hq], hmem⟩
  · intro d q hq
    obtain ⟨t, ht⟩ := send_mono pre ctx d q hq
    rw [hpre] at ht
    have hunch := (sendStep_mono c m).2 f c2 hfail d
    exact ⟨t, by rw [hunch]; exact ht⟩

/-- C10, witness: with node 1 present (capacity 1) and node 2 absent, the
batch [to 1, to 2, to 1] fails at the second message with NodeNotFound,
keeping the first message enqueued and never enqueuing the third. -/
theorem send_stops_at_first_failure_witness :
    Context.Send ⟨[(1, ⟨1, []⟩)], []⟩ ([⟨1, 7⟩] ++ ⟨2, 8⟩ :: [⟨1, 9⟩]) =
      (⟨[(1, ⟨1, [⟨1, 7⟩]⟩)], []⟩, some (.nodeNotFound 2)) :=
  (send_stops_at_first_failure ⟨[(1, ⟨1, []⟩)], []⟩ [⟨1, 7⟩] ⟨2, 8⟩ [⟨1, 9⟩]
    ⟨[(1, ⟨1, [⟨1, 7⟩]⟩)], []⟩ (.nodeNotFound 2) ⟨[(1, ⟨1, [⟨1, 7⟩]⟩)], []⟩
    rfl rfl).1

/-! ## C7: `Context.Send` delivery, overflow and failure modes -/

/-- C7: for a message whose destination exists (locally or in
persistence), `Context.Send` either enqueues the message at the tail of
the destination mailbox (leaving every other mailbox unchanged) or, when
the mailbox is full, returns the overflow failure without enqueuing and
with every mailbox unchanged; a ZeroID destination fails (the source
panics) before sending anything; a destination absent both locally and
from persistence fails with NodeNotFound. -/
theorem send_delivery_or_overflow :
    (∀ (ctx : SendCtx) (m : GMessage) (ctx1 : SendCtx) (node : MailNode),
       m.dest ≠ ZeroID → ctxGetNode ctx m.dest = some (ctx1, node) →
       (node.mbox.length < node.cap →
          Context.Send ctx [m] =
            ({ ctx1 with nodeMap := alSet ctx1.nodeMap m.dest { node with mbox := node.mbox ++ [m] } }, none) ∧
          mboxOf (Context.Send ctx [m]).1 m.dest = some (node.mbox ++ [m]) ∧
          (∀ d, d ≠ m.dest → mboxOf (Context.Send ctx [m]).1 d = mboxOf ctx d)) ∧
       (¬ node.mbox.length < node.cap →
          Context.Send ctx [m] = (ctx1, some (.overflow m.dest)) ∧
          (∀ d, mboxOf ctx1 d = mboxOf ctx d))) ∧
    (∀ (ctx : SendCtx) (m : GMessage), m.dest = ZeroID →
       Context.Send ctx [m] = (ctx, some .panicNullId)) ∧
    (∀ (ctx : SendCtx) (m : GMessage), m.dest ≠ ZeroID →
       alGet ctx.nodeMap m.dest = none → alGet ctx.persisted m.dest = none →
       Context.Send ctx [m] = (ctx, some (.nodeNotFound m.dest))) := by
  refine ⟨?_, ?_, ?_⟩
  · intro ctx m ctx1 node hz hget
    obtain ⟨hmb, hall⟩ := ctxGetNode_mbox hget
    constructor
    · intro hlt
      have hstep : sendStep ctx m = .ok
          ({ ctx1 with nodeMap := alSet ctx1.nodeMap m.dest { node with mbox := node.mbox ++ [m] } }) := by
        unfold sendStep
        rw [if_neg hz]
        simp only [hget]
        rw [if_pos hlt]
      have hsend : Context.Send ctx [m] =
          ({ ctx1 with nodeMap := alSet ctx1.nodeMap m.dest { node with mbox := node.mbox ++ [m] } }, none) := by
        unfold Context.Send
        rw [hstep]
        rfl
      refine ⟨hsend, ?_, ?_⟩
      · rw [hsend]
        rw [mboxOf_update, if_pos rfl]
      · intro d hd
        rw [hsend]
        rw [mboxOf_update, if_neg hd]
        exact hall d
    · intro hge
      have hstep : sendStep ctx m = .fail (.overflow m.dest) ctx1 := by
        unfold sendStep
        rw [if_neg hz]
        simp only [hget]
        rw [if_neg hge]
      have hsend : Context.Send ctx [m] = (ctx1, some (.overflow m.dest)) := by
        unfold Context.Send
        rw [hstep]
      exact ⟨hsend, hall⟩
  · intro ctx m hz
    have hstep : sendStep ctx m = .fail .panicNullId ctx := by
      unfold sendStep
      rw [if_pos hz]
    unfold Context.Send
    rw [hstep]
  · intro ctx m hz hn0 hn1
    have hget : ctxGetNode ctx m.dest = none := by
      unfold ctxGetNode
      rw [hn0, hn1]
    have hstep : sendStep ctx m = .fail (.nodeNotFound m.dest) ctx := by
      unfold sendStep
      rw [if_neg hz]
      simp only [hget]
    unfold Context.Send
    rw [hstep]

/-- C7, witness: sending to node 1 (mailbox capacity 2, currently empty)
enqueues the message. -/
theorem send_delivery_or_overflow_witness :
    Context.Send ⟨[(1, ⟨2, []⟩)], []⟩ [⟨1, 42⟩] =
      (⟨[(1, ⟨2, [⟨1, 42⟩]⟩)], []⟩, none) :=
  ((send_delivery_or_overflow.1 ⟨[(1, ⟨2, []⟩)], []⟩ ⟨1, 42⟩ ⟨[(1, ⟨2, []⟩)], []⟩
      ⟨2, []⟩ (by decide) rfl).1 (by decide)).1

end Graphvent
